import Mathlib

/-!
Verification of the zap-cli `ZAPHelper` layer (src/zapcli/zap_helper.py).

The helper wraps an external scanning engine reached over a control API.
We embed the decision logic of the helper shallowly: the responses of the
external engine (findings, scanner registry, status samples, connection results,
liveness probes) are passed in as explicit parameters, and the API calls the
helper would issue are returned as explicit traces, so every method body
becomes a pure Lean function mirroring the Python control flow.
-/

namespace ZapCli

/-! ## Data model -/

/-- A finding returned by the engine: a `risk` label plus opaque descriptive
fields (collapsed into one opaque `data` field). -/
structure Alert where
  risk : String
  data : Nat
deriving DecidableEq

/-- The error taxonomy of the helper.  The Python code raises `ZAPError`
(or a bare `KeyError` for an unknown risk label); we give each raise site
its own constructor, carrying the values the message interpolates. -/
inductive ZErr where
  | unknownSeverity (label : String)
  | unknownGroup (group : String) (valid : List String)
  | invalidScanner (token : String)
  | scanStartFailed
  | portConflict
  | timeout (op : String)
deriving DecidableEq

/-- Source `ZAPHelper.alert_levels`: the severity table, an association list in
source order. -/
def alert_levels : List (String × Nat) :=
  [("Informational", 1), ("Low", 2), ("Medium", 3), ("High", 4)]

/-- Dictionary lookup `self.alert_levels[label]`; `none` models `KeyError`. -/
def lookupLevel (label : String) : Option Nat :=
  alert_levels.lookup label

/-- The numeric severity of a finding, for stating theorems about findings
whose labels are known (where `lookupLevel` is `some`). -/
def sevOf (a : Alert) : Nat :=
  (lookupLevel a.risk).getD 0

/-! ## Alert Ranker (`ZAPHelper.alerts`)

The Python body is
`sorted((a for a in alerts if levels[a.risk] >= threshold), key, reverse=True)`.
The generator is consumed left to right, so the first finding with an unknown
risk label raises before any result is produced.  `sorted` with a key is
decorate-sort-undecorate; we decorate during filtering and sort the decorated
pairs descending by the numeric level. -/

/-- Filter the findings against the threshold, decorating each survivor with
its numeric level; the first unknown risk label aborts with an error, exactly
as the `KeyError` does in the Python generator. -/
def filterLeveled (threshold : Nat) : List Alert → Except ZErr (List (Nat × Alert))
  | [] => .ok []
  | a :: rest =>
    match lookupLevel a.risk with
    | none => .error (.unknownSeverity a.risk)
    | some v =>
      match filterLeveled threshold rest with
      | .error e => .error e
      | .ok r => .ok (if threshold ≤ v then (v, a) :: r else r)

/-- Insert a decorated finding into a list sorted non-increasing by level. -/
def insertDesc (x : Nat × Alert) : List (Nat × Alert) → List (Nat × Alert)
  | [] => [x]
  | y :: ys => if y.1 < x.1 then x :: y :: ys else y :: insertDesc x ys

/-- Sort decorated findings non-increasing by numeric level
(`sorted(..., key=level, reverse=True)`; tie order is not part of any claim). -/
def sortDesc (l : List (Nat × Alert)) : List (Nat × Alert) :=
  l.foldr insertDesc []

/-- Source `ZAPHelper.alerts`: look up the threshold, filter, sort descending. -/
def alerts (findings : List Alert) (alert_level : String) : Except ZErr (List Alert) :=
  match lookupLevel alert_level with
  | none => .error (.unknownSeverity alert_level)
  | some threshold =>
    match filterLeveled threshold findings with
    | .error e => .error e
    | .ok l => .ok ((sortDesc l).map Prod.snd)

/-! ## Scanner Registry Resolver

The scanner methods of the helper issue calls against the `ascan` API of
the engine.
We record the calls a method would issue as a trace of `ApiCall` events and
give the engine-side meaning of each event as a transformer of the enabled
set (`applyCall`), parameterised by the engine registry `univ` (the set of
all registered scanner ids, which `enable_all_scanners` enables). -/

/-- One call issued to the scanner API of the engine.  The Python code
comma-joins id lists on the wire; the event keeps the id list itself,
the join being pure wire encoding. -/
inductive ApiCall where
  | disableAll
  | enableAll
  | enableIds (ids : List String)
  | disableIds (ids : List String)
deriving DecidableEq

/-- Engine-side effect of one scanner API call on the enabled set. -/
def applyCall (univ : Finset String) (s : Finset String) : ApiCall → Finset String
  | .disableAll => ∅
  | .enableAll => univ
  | .enableIds ids => s ∪ ids.toFinset
  | .disableIds ids => s \ ids.toFinset

/-- Engine-side effect of a trace of scanner API calls, applied in order. -/
def applyTrace (univ : Finset String) (s : Finset String) : List ApiCall → Finset String
  | [] => s
  | c :: cs => applyTrace univ (applyCall univ s c) cs

/-- Source `ZAPHelper.scanner_group_map`: the static group configuration, an
association list in source order. -/
def scanner_group_map : List (String × List String) :=
  [("sqli", ["40018"]),
   ("xss", ["40012", "40014", "40016", "40017"]),
   ("xss_reflected", ["40012"]),
   ("xss_persistent", ["40014", "40016", "40017"])]

/-- Source `ZAPHelper.scanner_groups`: the literal `all` followed by the
keys of the group map. -/
def scanner_groups : List String :=
  "all" :: scanner_group_map.map Prod.fst

/-- Source `ZAPHelper.enabled_scanner_ids`: ids of the scanners whose `enabled`
field equals the literal text marker `true`.  The registry listing is a
parameter: one `(id, enabled)` pair per scanner. -/
def enabled_scanner_ids (scanners : List (String × String)) : List String :=
  (scanners.filter (fun sc => sc.2 == "true")).map Prod.fst

/-- Source `ZAPHelper.enable_scanners_by_group`: the reserved name `all` maps to the
enable-all call; otherwise the static map is consulted, and a missing key
raises listing `scanner_groups` (the valid names) in the error payload. -/
def enable_scanners_by_group (group : String) : Except ZErr (List ApiCall) :=
  if group = "all" then
    .ok [.enableAll]
  else
    match scanner_group_map.lookup group with
    | some scanner_list => .ok [.enableIds scanner_list]
    | none => .error (.unknownGroup group scanner_groups)

/-- Python `str.isdigit()` on ASCII content: nonempty and all digits. -/
def strIsDigit (s : String) : Bool :=
  !s.isEmpty && s.toList.all Char.isDigit

/-- The token loop of `ZAPHelper.enable_scanners`: a group token is resolved
and its call issued immediately; a digit-only token is appended to the
accumulator; anything else raises `InvalidScanner`, abandoning the
accumulator.  After the loop a nonempty accumulator is enabled in one
batched call.  Returns the calls issued together with the error, if any. -/
def enableScannersGo : List String → List String → List ApiCall × Option ZErr
  | [], acc => ((if acc.isEmpty then [] else [ApiCall.enableIds acc]), none)
  | t :: rest, acc =>
    if t ∈ scanner_groups then
      match enable_scanners_by_group t with
      | .ok calls =>
        let r := enableScannersGo rest acc
        (calls ++ r.1, r.2)
      | .error e => ([], some e)
    else if strIsDigit t then
      enableScannersGo rest (acc ++ [t])
    else
      ([], some (ZErr.invalidScanner t))

/-- Source `ZAPHelper.enable_scanners`: disable all scanners first, then run the
token loop. -/
def enable_scanners (scanners : List String) : List ApiCall × Option ZErr :=
  let r := enableScannersGo scanners []
  (ApiCall.disableAll :: r.1, r.2)

/-! ## Async polling (`run_spider`, `run_active_scan`)

Both loops are `while int(status()) < 100: log(status()); sleep(interval)`.
The status probe is re-invoked on every iteration; we model the sequence of
loop-condition samples as a function `status : Nat → Int` from iteration
index to sample (the debug log in the body queries once more, purely
observationally).  The loop has no deadline, so we cut it off with fuel:
`some i` means the loop exited — the job was declared complete — at the
iteration that sampled `status i`; `none` means fuel ran out first. -/

/-- The polling loop: at iteration `i` sample `status i`; exit when the
sample is at least 100, else sleep and re-query. -/
def pollLoop (status : Nat → Int) (i : Nat) : Nat → Option Nat
  | 0 => none
  | fuel + 1 =>
    if 100 ≤ status i then some i else pollLoop status (i + 1) fuel

/-- Source `ZAPHelper.run_spider`: issue spider-start, then poll unbounded. -/
def run_spider (status : Nat → Int) (fuel : Nat) : Option Nat :=
  pollLoop status 0 fuel

/-- Source `ZAPHelper.run_active_scan`: issue scan-start; an empty (falsy) job id
raises before any polling; otherwise poll unbounded. -/
def run_active_scan (scan_id : String) (status : Nat → Int) (fuel : Nat) :
    Except ZErr (Option Nat) :=
  if scan_id = "" then .error .scanStartFailed
  else .ok (pollLoop status 0 fuel)

/-! ## Lifecycle Controller (`is_running`, `start`) -/

/-- Whether `needle` is a prefix of `hay` (character lists). -/
def chStart : List Char → List Char → Bool
  | [], _ => true
  | _ :: _, [] => false
  | n :: ns, h :: hs => n == h && chStart ns hs

/-- Whether `needle` occurs contiguously inside `hay` (Python `in` on
strings). -/
def chFind (needle : List Char) : List Char → Bool
  | [] => needle.isEmpty
  | h :: hs => chStart needle (h :: hs) || chFind needle hs

/-- The marker test on a connection result: the
`Access-Control-Allow-Headers` header value, when present, must contain
`ZAP-Header`; a missing header gives the Python default `[]`, in which the
marker is never found. -/
def markerFound : Option String → Bool
  | none => false
  | some h => chFind "ZAP-Header".toList h.toList

/-- Source `ZAPHelper.is_running`: the connection outcome is a parameter —
`none` models `URLError` (connection refused), `some hdr` a successful
connection carrying the optional marker header value.  A successful
connection without the marker raises (a foreign process owns the port). -/
def is_running (conn : Option (Option String)) : Except ZErr Bool :=
  match conn with
  | none => .ok false
  | some hdr =>
    if markerFound hdr then .ok true
    else .error .portConflict

/-- Outcome of `ZAPHelper.start`: how many processes were spawned, how many
liveness probes were made in total, and the error, if any. -/
structure StartResult where
  spawns : Nat
  probes : Nat
  error : Option ZErr
deriving DecidableEq

/-- The liveness wait loop of `start`: iteration `j` (at elapsed time `2*j`
seconds, one 2-second sleep per earlier iteration) probes `probe (j+1)`
(probe 0 was the initial already-running check); a true probe exits, else
the deadline `time.time() > timeout_time` is checked and the loop raises or
sleeps.  Returns (probes made inside the loop, error). -/
def startLoop (probe : Nat → Bool) (timeout : Nat) (j : Nat) : Nat → Nat × Option ZErr
  | 0 => (j, none)
  | fuel + 1 =>
    if probe (j + 1) then (j + 1, none)
    else if timeout < 2 * j then (j + 1, some (ZErr.timeout "start"))
    else startLoop probe timeout (j + 1) fuel

/-- Source `ZAPHelper.start`: if the initial `is_running` probe is true, warn and
return without spawning; otherwise spawn the daemon process once and enter
the liveness wait loop with the configured timeout (default 60, 2-second
interval).  The loop raises no later than the first iteration `j` with
`timeout < 2*j`, so `timeout / 2 + 2` iterations of fuel always outlast it (see the lemmas
below); the fuel only makes the recursion structural. -/
def start (probe : Nat → Bool) (timeout : Nat) : StartResult :=
  if probe 0 then { spawns := 0, probes := 1, error := none }
  else
    let r := startLoop probe timeout 0 (timeout / 2 + 2)
    { spawns := 1, probes := 1 + r.1, error := r.2 }

/-! ## Helper lemmas: sorting -/

theorem insertDesc_perm (x : Nat × Alert) (l : List (Nat × Alert)) :
    List.Perm (insertDesc x l) (x :: l) := by
  induction l with
  | nil => rfl
  | cons y ys ih =>
    simp only [insertDesc]
    split
    · rfl
    · exact (ih.cons y).trans (List.Perm.swap x y ys)

theorem sortDesc_perm (l : List (Nat × Alert)) : List.Perm (sortDesc l) l := by
  induction l with
  | nil => rfl
  | cons x xs ih =>
    exact (insertDesc_perm x (sortDesc xs)).trans (ih.cons x)

theorem insertDesc_pairwise (x : Nat × Alert) (l : List (Nat × Alert))
    (h : l.Pairwise (fun p q => q.1 ≤ p.1)) :
    (insertDesc x l).Pairwise (fun p q => q.1 ≤ p.1) := by
  induction l with
  | nil => simp [insertDesc]
  | cons y ys ih =>
    rw [List.pairwise_cons] at h
    obtain ⟨hy, hys⟩ := h
    simp only [insertDesc]
    split
    · rename_i hlt
      refine List.Pairwise.cons ?_ (List.Pairwise.cons hy hys)
      intro q hq
      rcases List.mem_cons.mp hq with rfl | hq
      · exact le_of_lt hlt
      · exact le_trans (hy q hq) (le_of_lt hlt)
    · rename_i hge
      refine List.Pairwise.cons ?_ (ih hys)
      intro q hq
      have hq2 : q ∈ x :: ys := (insertDesc_perm x ys).mem_iff.mp hq
      rcases List.mem_cons.mp hq2 with rfl | hq3
      · exact le_of_not_lt hge
      · exact hy q hq3

theorem sortDesc_pairwise (l : List (Nat × Alert)) :
    (sortDesc l).Pairwise (fun p q => q.1 ≤ p.1) := by
  induction l with
  | nil => exact List.Pairwise.nil
  | cons x xs ih => exact insertDesc_pairwise x (sortDesc xs) ih

/-! ## Helper lemmas: filtering -/

theorem filterLeveled_ok (th : Nat) (l : List Alert)
    (h : ∀ a ∈ l, (lookupLevel a.risk).isSome) :
    filterLeveled th l =
      .ok ((l.filter (fun a => decide (th ≤ sevOf a))).map (fun a => (sevOf a, a))) := by
  induction l with
  | nil => rfl
  | cons a rest ih =>
    have ha := h a (List.mem_cons_self a rest)
    obtain ⟨v, hv⟩ := Option.isSome_iff_exists.mp ha
    have hsev : sevOf a = v := by simp [sevOf, hv]
    have hrest := ih (fun b hb => h b (List.mem_cons_of_mem a hb))
    by_cases hth : th ≤ v
    · simp [filterLeveled, hv, hrest, List.filter_cons, hsev, hth]
    · simp [filterLeveled, hv, hrest, List.filter_cons, hsev, hth]

theorem filterLeveled_error (th : Nat) (l : List Alert)
    (h : ∃ a ∈ l, lookupLevel a.risk = none) :
    ∃ label, lookupLevel label = none ∧
      filterLeveled th l = .error (.unknownSeverity label) := by
  induction l with
  | nil => simp at h
  | cons a rest ih =>
    cases hv : lookupLevel a.risk with
    | none => exact ⟨a.risk, hv, by simp [filterLeveled, hv]⟩
    | some v =>
      have hrest : ∃ b ∈ rest, lookupLevel b.risk = none := by
        rcases h with ⟨b, hb, hbn⟩
        rcases List.mem_cons.mp hb with rfl | hb2
        · rw [hv] at hbn; exact absurd hbn (by simp)
        · exact ⟨b, hb2, hbn⟩
      rcases ih hrest with ⟨label, hl, hfe⟩
      refine ⟨label, hl, ?_⟩
      simp [filterLeveled, hv, hfe]

theorem map_snd_decorate (l : List Alert) :
    (l.map (fun a => (sevOf a, a))).map Prod.snd = l := by
  induction l with
  | nil => rfl
  | cons a rest ih => simp only [List.map_cons, ih]

theorem mem_alerts_output (l : List Alert) (p : Alert → Bool) (x : Alert) :
    x ∈ (sortDesc ((l.filter p).map (fun a => (sevOf a, a)))).map Prod.snd ↔
      x ∈ l.filter p := by
  constructor
  · intro hx
    have h1 := ((sortDesc_perm ((l.filter p).map (fun a => (sevOf a, a)))).map
      Prod.snd).mem_iff.mp hx
    rwa [map_snd_decorate (l.filter p)] at h1
  · intro hx
    apply ((sortDesc_perm _).map Prod.snd).mem_iff.mpr
    rwa [map_snd_decorate (l.filter p)]

/-! ## Claim theorems: Alert Ranker -/

/-- C1: for every list of findings (with recognized labels) and valid
minimum severity, `alerts` returns exactly the findings of severity at
least the threshold, sorted non-increasing by numeric severity. -/
theorem alerts_filter_sort (findings : List Alert) (minSev : String) (v : Nat)
    (hmin : lookupLevel minSev = some v)
    (hknown : ∀ a ∈ findings, (lookupLevel a.risk).isSome) :
    ∃ out, alerts findings minSev = .ok out ∧
      out.Perm (findings.filter (fun a => decide (v ≤ sevOf a))) ∧
      out.Pairwise (fun x y => sevOf y ≤ sevOf x) := by
  have hfl := filterLeveled_ok v findings hknown
  set dec := (findings.filter (fun a => decide (v ≤ sevOf a))).map (fun a => (sevOf a, a))
    with hdec
  refine ⟨(sortDesc dec).map Prod.snd, ?_, ?_, ?_⟩
  · simp [alerts, hmin, hfl]
  · have hp := (sortDesc_perm dec).map Prod.snd
    have hid : dec.map Prod.snd = findings.filter (fun a => decide (v ≤ sevOf a)) := by
      rw [hdec]
      exact map_snd_decorate _
    rw [hid] at hp
    exact hp
  · have hs := sortDesc_pairwise dec
    have hmem : ∀ p ∈ sortDesc dec, p.1 = sevOf p.2 := by
      intro p hp
      have hp2 : p ∈ dec := (sortDesc_perm dec).mem_iff.mp hp
      rcases List.mem_map.mp hp2 with ⟨a, _, rfl⟩
      rfl
    rw [List.pairwise_map]
    refine hs.imp_of_mem ?_
    intro p q hp hq hle
    rw [← hmem p hp, ← hmem q hq]
    exact hle

/-- C1 witness: a concrete run. -/
theorem alerts_filter_sort_witness :
    ∃ out, alerts [⟨"High", 0⟩, ⟨"Low", 1⟩] "Low" = .ok out ∧
      out.Perm ([Alert.mk "High" 0, Alert.mk "Low" 1].filter
        (fun a => decide (2 ≤ sevOf a))) ∧
      out.Pairwise (fun x y => sevOf y ≤ sevOf x) :=
  alerts_filter_sort [⟨"High", 0⟩, ⟨"Low", 1⟩] "Low" 2 (by decide) (by decide)

/-- C2: with a fixed list of findings, a lower threshold retains every
alert a higher threshold retains. -/
theorem alerts_monotone (findings : List Alert) (sa sb : String) (va vb : Nat)
    (outA outB : List Alert)
    (ha : lookupLevel sa = some va) (hb : lookupLevel sb = some vb) (hab : va ≤ vb)
    (hknown : ∀ a ∈ findings, (lookupLevel a.risk).isSome)
    (hA : alerts findings sa = .ok outA) (hB : alerts findings sb = .ok outB) :
    ∀ x ∈ outB, x ∈ outA := by
  have hflA := filterLeveled_ok va findings hknown
  have hflB := filterLeveled_ok vb findings hknown
  simp only [alerts, ha, hflA, Except.ok.injEq] at hA
  simp only [alerts, hb, hflB, Except.ok.injEq] at hB
  intro x hx
  rw [← hB] at hx
  rw [← hA]
  have hxB2 : x ∈ findings.filter (fun a => decide (vb ≤ sevOf a)) :=
    (mem_alerts_output findings _ x).mp hx
  rw [List.mem_filter] at hxB2
  have hxA : x ∈ findings.filter (fun a => decide (va ≤ sevOf a)) := by
    rw [List.mem_filter]
    refine ⟨hxB2.1, ?_⟩
    have := of_decide_eq_true hxB2.2
    exact decide_eq_true (le_trans hab this)
  exact (mem_alerts_output findings _ x).mpr hxA

/-- C2 witness: a concrete run with thresholds Low ≤ High, instantiated at
the one alert the High threshold retains. -/
theorem alerts_monotone_witness :
    Alert.mk "High" 0 ∈ [Alert.mk "High" 0, Alert.mk "Low" 1] :=
  alerts_monotone [⟨"High", 0⟩, ⟨"Low", 1⟩] "Low" "High" 2 4
    [⟨"High", 0⟩, ⟨"Low", 1⟩] [⟨"High", 0⟩]
    (by decide) (by decide) (by decide) (by decide) rfl rfl
    (Alert.mk "High" 0) (by decide)

/-- C3: a finding with an unrecognized risk label makes `alerts` fail hard
(with the lookup of the label failing) instead of silently dropping it. -/
theorem alerts_unknown_severity (findings : List Alert) (minSev : String) (v : Nat)
    (hmin : lookupLevel minSev = some v)
    (hbad : ∃ a ∈ findings, lookupLevel a.risk = none) :
    ∃ label, lookupLevel label = none ∧
      alerts findings minSev = .error (.unknownSeverity label) := by
  rcases filterLeveled_error v findings hbad with ⟨label, hl, hfe⟩
  exact ⟨label, hl, by simp [alerts, hmin, hfe]⟩

/-- C3 witness: a concrete run with a foreign label. -/
theorem alerts_unknown_severity_witness :
    ∃ label, lookupLevel label = none ∧
      alerts [⟨"Critical", 0⟩] "Low" = .error (.unknownSeverity label) :=
  alerts_unknown_severity [⟨"Critical", 0⟩] "Low" 2 (by decide)
    ⟨⟨"Critical", 0⟩, by decide, by decide⟩

/-! ## Helper lemmas: scanner registry -/

/-- The single call `enable_scanners_by_group` issues for a valid group
token (`none` for tokens that are not group names). -/
def groupCallOf (t : String) : Option ApiCall :=
  if t ∈ scanner_groups then
    if t = "all" then some ApiCall.enableAll
    else (scanner_group_map.lookup t).map ApiCall.enableIds
  else none

/-- The ids a single call can newly enable (everything else it leaves
disabled or disables). -/
def enablesOf (univ : Finset String) : ApiCall → Finset String
  | .disableAll => ∅
  | .enableAll => univ
  | .enableIds ids => ids.toFinset
  | .disableIds _ => ∅

theorem lookup_group_none (g : String) (hg : g ∉ scanner_groups) :
    scanner_group_map.lookup g = none := by
  simp only [scanner_groups, scanner_group_map, List.map_cons, List.map_nil,
    List.mem_cons, List.not_mem_nil, or_false, not_or] at hg
  obtain ⟨h0, h1, h2, h3, h4⟩ := hg
  have e1 : (g == "sqli") = false := beq_eq_false_iff_ne.mpr h1
  have e2 : (g == "xss") = false := beq_eq_false_iff_ne.mpr h2
  have e3 : (g == "xss_reflected") = false := beq_eq_false_iff_ne.mpr h3
  have e4 : (g == "xss_persistent") = false := beq_eq_false_iff_ne.mpr h4
  simp [scanner_group_map, List.lookup, e1, e2, e3, e4]

theorem enable_group_ok_of_mem (t : String) (ht : t ∈ scanner_groups) :
    ∃ c, groupCallOf t = some c ∧ enable_scanners_by_group t = .ok [c] := by
  by_cases hall : t = "all"
  · subst hall
    exact ⟨ApiCall.enableAll, rfl, rfl⟩
  · have hk : t = "sqli" ∨ t = "xss" ∨ t = "xss_reflected" ∨ t = "xss_persistent" := by
      simpa [scanner_groups, scanner_group_map, hall] using ht
    rcases hk with rfl | rfl | rfl | rfl
    · exact ⟨ApiCall.enableIds ["40018"], rfl, rfl⟩
    · exact ⟨ApiCall.enableIds ["40012", "40014", "40016", "40017"], rfl, rfl⟩
    · exact ⟨ApiCall.enableIds ["40012"], rfl, rfl⟩
    · exact ⟨ApiCall.enableIds ["40014", "40016", "40017"], rfl, rfl⟩

/-- The token loop on `pre ++ bad :: rest` with `pre` all valid and `bad`
neither a group nor digits: the calls issued are exactly the per-group
calls of `pre` (no batched id call), and the loop aborts with
`InvalidScanner bad`, whatever the accumulator held. -/
theorem enableScannersGo_invalid (pre : List String) (bad : String) (rest : List String)
    (hpre : ∀ t ∈ pre, t ∈ scanner_groups ∨ strIsDigit t = true)
    (hbad1 : bad ∉ scanner_groups) (hbad2 : strIsDigit bad = false) :
    ∀ acc, enableScannersGo (pre ++ bad :: rest) acc =
      (pre.filterMap groupCallOf, some (ZErr.invalidScanner bad)) := by
  induction pre with
  | nil =>
    intro acc
    simp only [List.nil_append, enableScannersGo, List.filterMap_nil]
    rw [if_neg hbad1, if_neg (by simp [hbad2])]
  | cons t pre ih =>
    intro acc
    have ihr := ih (fun u hu => hpre u (List.mem_cons_of_mem t hu))
    by_cases hg : t ∈ scanner_groups
    · rcases enable_group_ok_of_mem t hg with ⟨c, hc, he⟩
      simp only [List.cons_append, enableScannersGo, if_pos hg, he, List.append_eq,
        List.nil_append, List.filterMap_cons, hc, ihr]
    · have htd : strIsDigit t = true := by
        rcases hpre t (List.mem_cons_self t pre) with h | h
        · exact absurd h hg
        · exact h
      simp only [List.cons_append, enableScannersGo, if_neg hg, htd, if_true,
        List.append_eq, List.filterMap_cons, groupCallOf, ihr]

/-- Anything enabled after running a trace was either enabled at the start
or is among the ids some call in the trace can enable. -/
theorem applyTrace_mem (univ : Finset String) (s : Finset String) (cs : List ApiCall)
    (d : String) (hd : d ∈ applyTrace univ s cs) :
    d ∈ s ∨ ∃ c ∈ cs, d ∈ enablesOf univ c := by
  induction cs generalizing s with
  | nil => exact Or.inl hd
  | cons c cs ih =>
    have h1 := ih (applyCall univ s c) hd
    rcases h1 with h1 | ⟨c2, hc2, hd2⟩
    · cases c with
      | disableAll => simp [applyCall] at h1
      | enableAll => exact Or.inr ⟨ApiCall.enableAll, List.mem_cons_self _ _, h1⟩
      | enableIds ids =>
        rcases Finset.mem_union.mp h1 with h1 | h1
        · exact Or.inl h1
        · exact Or.inr ⟨ApiCall.enableIds ids, List.mem_cons_self _ _, h1⟩
      | disableIds ids => exact Or.inl (Finset.mem_sdiff.mp h1).1
    · exact Or.inr ⟨c2, List.mem_cons_of_mem c hc2, hd2⟩

/-! ## Claim theorems: Scanner Registry Resolver -/

/-- C4: `enable_scanners` on the tokens sqli and 40099 issues disable-all,
then the sqli group enable immediately, then one batched enable of the
digit id,
and from any initial enabled set the final enabled set is exactly
the sqli ids plus `40099`. -/
theorem enable_scanners_sqli_40099 (univ s : Finset String) :
    enable_scanners ["sqli", "40099"] =
      ([ApiCall.disableAll, ApiCall.enableIds ["40018"], ApiCall.enableIds ["40099"]],
        none) ∧
    applyTrace univ s (enable_scanners ["sqli", "40099"]).1 = {"40018", "40099"} := by
  have ht : (enable_scanners ["sqli", "40099"]).1 =
      [ApiCall.disableAll, ApiCall.enableIds ["40018"], ApiCall.enableIds ["40099"]] := by
    decide
  refine ⟨by decide, ?_⟩
  rw [ht]
  simp only [applyTrace, applyCall]
  decide

/-- C5: an unknown group name fails with `UnknownGroup` carrying `all` plus
every configured group key, and the reserved name `all` issues the
enable-all call. -/
theorem enable_group_unknown_or_all (g : String) :
    (g ∉ scanner_groups →
      enable_scanners_by_group g =
        .error (.unknownGroup g ("all" :: scanner_group_map.map Prod.fst))) ∧
    enable_scanners_by_group "all" = .ok [ApiCall.enableAll] := by
  constructor
  · intro hg
    have h1 : g ≠ "all" := fun h => hg (h ▸ List.mem_cons_self "all" _)
    rw [enable_scanners_by_group, if_neg h1, lookup_group_none g hg]
    rfl
  · rfl

/-- C5 witness: the example group name used in the specification. -/
theorem enable_group_unknown_or_all_witness :
    enable_scanners_by_group "not-a-group" =
      .error (.unknownGroup "not-a-group" ("all" :: scanner_group_map.map Prod.fst)) ∧
    enable_scanners_by_group "all" = .ok [ApiCall.enableAll] :=
  ⟨(enable_group_unknown_or_all "not-a-group").1 (by decide),
   (enable_group_unknown_or_all "not-a-group").2⟩

/-- C10 counterexample: with the token list 40018, sqli, bad, the digit id
`40018`, accumulated before the invalid token, is enabled at the moment the
error fires — the immediately-applied sqli group contains it — so the claim
that the accumulated ids are left disabled fails. -/
theorem enable_scanners_invalid_cex :
    (enable_scanners ["40018", "sqli", "bad"]).2 = some (ZErr.invalidScanner "bad") ∧
    strIsDigit "40018" = true ∧
    "40018" ∈ applyTrace ∅ ∅ (enable_scanners ["40018", "sqli", "bad"]).1 := by
  decide

/-- C10 (amended): when a token is neither a group nor digits, the calls
already issued (disable-all, then one call per earlier group token, in
token order) stand — there is no rollback — the batched enable of the
accumulated digit ids is never issued, and every id enabled afterwards was
put there by one of the earlier group calls; accumulated ids outside those
groups stay disabled. -/
theorem enable_scanners_invalid_token (pre : List String) (bad : String)
    (rest : List String)
    (hpre : ∀ t ∈ pre, t ∈ scanner_groups ∨ strIsDigit t = true)
    (hbad1 : bad ∉ scanner_groups) (hbad2 : strIsDigit bad = false) :
    enable_scanners (pre ++ bad :: rest) =
      (ApiCall.disableAll :: pre.filterMap groupCallOf,
        some (ZErr.invalidScanner bad)) ∧
    ∀ univ s d, d ∈ applyTrace univ s (enable_scanners (pre ++ bad :: rest)).1 →
      ∃ c ∈ pre.filterMap groupCallOf, d ∈ enablesOf univ c := by
  have hgo := enableScannersGo_invalid pre bad rest hpre hbad1 hbad2 []
  have htr : enable_scanners (pre ++ bad :: rest) =
      (ApiCall.disableAll :: pre.filterMap groupCallOf,
        some (ZErr.invalidScanner bad)) := by
    rw [enable_scanners, hgo]
  refine ⟨htr, ?_⟩
  intro univ s d hd
  rw [htr] at hd
  have hd2 : d ∈ applyTrace univ (∅ : Finset String) (pre.filterMap groupCallOf) := by
    simpa [applyTrace, applyCall] using hd
  rcases applyTrace_mem univ ∅ (pre.filterMap groupCallOf) d hd2 with h | h
  · exact absurd h (Finset.not_mem_empty d)
  · exact h

/-- C10 witness: a concrete aborted call. -/
theorem enable_scanners_invalid_token_witness :
    enable_scanners ["sqli", "40099", "bad"] =
      (ApiCall.disableAll :: ["sqli", "40099"].filterMap groupCallOf,
        some (ZErr.invalidScanner "bad")) ∧
    ∃ c ∈ ["sqli", "40099"].filterMap groupCallOf, "40018" ∈ enablesOf ∅ c :=
  ⟨(enable_scanners_invalid_token ["sqli", "40099"] "bad" []
      (by decide) (by decide) (by decide)).1,
   (enable_scanners_invalid_token ["sqli", "40099"] "bad" []
      (by decide) (by decide) (by decide)).2 ∅ ∅ "40018" (by decide)⟩

/-! ## Helper lemmas: polling and start -/

theorem pollLoop_exit (status : Nat → Int) :
    ∀ fuel i0 i, pollLoop status i0 fuel = some i →
      i0 ≤ i ∧ 100 ≤ status i ∧ ∀ j, i0 ≤ j → j < i → status j < 100 := by
  intro fuel
  induction fuel with
  | zero => intro i0 i h; simp [pollLoop] at h
  | succ f ih =>
    intro i0 i h
    rw [pollLoop] at h
    by_cases hc : 100 ≤ status i0
    · rw [if_pos hc] at h
      cases h
      exact ⟨le_refl i0, hc, fun j hj1 hj2 => absurd hj1 (by omega)⟩
    · rw [if_neg hc] at h
      obtain ⟨h1, h2, h3⟩ := ih (i0 + 1) i h
      refine ⟨by omega, h2, ?_⟩
      intro j hj1 hj2
      rcases eq_or_lt_of_le hj1 with rfl | hj3
      · exact lt_of_not_le hc
      · exact h3 j (by omega) hj2

/-- A constant just-finished status stream, for witnesses. -/
def steadyStatus : Nat → Int := fun _ => 100

/-- The status stream of the C6 counterexample: 50, then 101 forever. -/
def overshootStatus : Nat → Int := fun i => if i = 0 then 50 else 101

theorem startLoop_never_true (probe : Nat → Bool) (timeout : Nat)
    (h : ∀ i, probe i = false) :
    ∀ fuel j, 2 * j ≤ timeout + 2 → timeout / 2 + 2 ≤ j + fuel →
      (startLoop probe timeout j fuel).2 = some (ZErr.timeout "start") := by
  intro fuel
  induction fuel with
  | zero => intro j h1 h2; omega
  | succ f ih =>
    intro j h1 h2
    rw [startLoop, h (j + 1)]
    by_cases hc : timeout < 2 * j
    · simp [hc]
    · simp only [Bool.false_eq_true, if_false, if_neg hc]
      exact ih (j + 1) (by omega) (by omega)

theorem startLoop_first_true (probe : Nat → Bool) (timeout k : Nat)
    (hk : probe k = true) (hfirst : ∀ i, i < k → probe i = false) :
    ∀ fuel j, j < k → (∀ i, j ≤ i → i + 1 < k → ¬ timeout < 2 * i) →
      k ≤ j + fuel →
      startLoop probe timeout j fuel = (k, none) := by
  intro fuel
  induction fuel with
  | zero => intro j h1 h2 h3; omega
  | succ f ih =>
    intro j h1 h2 h3
    rw [startLoop]
    rcases eq_or_lt_of_le (Nat.succ_le_of_lt h1) with he | hlt
    · rw [show j + 1 = k from he]
      simp [hk]
    · rw [hfirst (j + 1) hlt]
      rw [if_neg (by simp), if_neg (h2 j (le_refl j) hlt)]
      exact ih (j + 1) hlt (fun i hi1 hi2 => h2 i (by omega) hi2) (by omega)

/-! ## Claim theorems: polling and lifecycle -/

/-- C6 counterexample: the spider loop exits — the job is declared
complete — on the sample 101, though no status sample of exactly 100 was
ever returned (samples were 50, then 101). -/
theorem poll_overshoot_cex :
    run_spider overshootStatus 2 = some 1 ∧
    overshootStatus 0 ≠ 100 ∧ overshootStatus 1 ≠ 100 := by
  decide

/-- C6 (amended): the spider/active-scan polling loop declares completion
only on an iteration whose freshly queried sample is at least 100, every
the sample of every earlier iteration being below 100; when the samples respect the
JobStatus range (at most 100), the deciding sample is exactly 100.  The
active-scan loop is the same loop, entered once the job id is nonempty. -/
theorem poll_complete_requires_100 (status : Nat → Int) (fuel i : Nat)
    (scanId : String) (hid : scanId ≠ "")
    (hspider : run_spider status fuel = some i) :
    100 ≤ status i ∧ (∀ j, j < i → status j < 100) ∧
    ((∀ j, status j ≤ 100) → status i = 100) ∧
    run_active_scan scanId status fuel = .ok (some i) := by
  obtain ⟨-, h2, h3⟩ := pollLoop_exit status fuel 0 i hspider
  refine ⟨h2, fun j hj => h3 j (Nat.zero_le j) hj, fun hb => le_antisymm (hb i) h2, ?_⟩
  have hp : pollLoop status 0 fuel = some i := hspider
  rw [run_active_scan, if_neg hid, hp]

/-- C6 witness: a stream already at 100 exits at the first sample. -/
theorem poll_complete_requires_100_witness :
    (100 : Int) ≤ steadyStatus 0 ∧ steadyStatus 0 = 100 ∧
    run_active_scan "1" steadyStatus 1 = .ok (some 0) := by
  have h := poll_complete_requires_100 steadyStatus 1 0 "1" (by decide) (by decide)
  exact ⟨h.1, h.2.2.1 (fun j => le_refl 100), h.2.2.2⟩

/-- C9: an empty (falsy) job id from scan-start fails with
`ScanStartFailed`, independent of whatever status stream the engine would
have served (no polling happens); a nonempty id raises nothing and
proceeds to the polling loop. -/
theorem active_scan_start_failed (status status2 : Nat → Int) (fuel fuel2 : Nat)
    (scanId : String) (hid : scanId ≠ "") :
    run_active_scan "" status fuel = .error .scanStartFailed ∧
    run_active_scan "" status fuel = run_active_scan "" status2 fuel2 ∧
    run_active_scan scanId status fuel = .ok (pollLoop status 0 fuel) := by
  refine ⟨rfl, rfl, ?_⟩
  rw [run_active_scan, if_neg hid]

/-- C9 witness: a concrete empty and nonempty job id. -/
theorem active_scan_start_failed_witness :
    run_active_scan "" steadyStatus 1 = .error .scanStartFailed ∧
    run_active_scan "" steadyStatus 1 = run_active_scan "" overshootStatus 5 ∧
    run_active_scan "1" steadyStatus 1 = .ok (pollLoop steadyStatus 0 1) :=
  active_scan_start_failed steadyStatus overshootStatus 1 5 "1" (by decide)

/-- C7 counterexample: a liveness probe that is true from the very first
check (the engine already running) makes `start` return normally with zero
process-spawn side effects, not one. -/
theorem start_already_running_cex :
    start (fun _ => true) 60 = { spawns := 0, probes := 1, error := none } := by
  decide

/-- C7 (amended): a probe that never returns true makes `start` fail with
the timeout error after one spawn; a probe that is false at the initial
already-running check and first true at probe `k`, with `k` inside the
deadline, makes `start` return normally with exactly one spawn and exactly
`1 + k` probes — none beyond the first true result. -/
theorem start_timeout_or_success (probeA probeB : Nat → Bool) (timeout k : Nat)
    (hA : ∀ i, probeA i = false)
    (hB0 : probeB 0 = false) (hBk : probeB k = true)
    (hBfirst : ∀ i, i < k → probeB i = false)
    (hBdl : 2 * k ≤ timeout + 4) :
    (start probeA timeout).error = some (ZErr.timeout "start") ∧
    (start probeA timeout).spawns = 1 ∧
    start probeB timeout = { spawns := 1, probes := 1 + k, error := none } := by
  have hk0 : 0 < k := by
    rcases Nat.eq_zero_or_pos k with rfl | h
    · rw [hB0] at hBk; exact absurd hBk (by simp)
    · exact h
  refine ⟨?_, ?_, ?_⟩
  · rw [start, if_neg (by simp [hA 0])]
    exact startLoop_never_true probeA timeout hA (timeout / 2 + 2) 0
      (by omega) (by omega)
  · rw [start, if_neg (by simp [hA 0])]
  · rw [start, if_neg (by simp [hB0])]
    rw [startLoop_first_true probeB timeout k hBk hBfirst (timeout / 2 + 2) 0
      hk0 (fun i hi1 hi2 => by omega) (by omega)]

/-- C7 witness: a never-true probe and a probe first true at index 1. -/
theorem start_timeout_or_success_witness :
    (start (fun _ => false) 60).error = some (ZErr.timeout "start") ∧
    (start (fun _ => false) 60).spawns = 1 ∧
    start (fun i => decide (i = 1)) 60 = { spawns := 1, probes := 2, error := none } :=
  start_timeout_or_success (fun _ => false) (fun i => decide (i = 1)) 60 1
    (fun _ => rfl) (by decide) (by decide)
    (fun i hi => by rw [Nat.lt_one_iff] at hi; subst hi; rfl) (by omega)

/-- C8: a connection failure reports not running; a successful connection
reports running only with the marker header present, and without the
marker it raises the distinct port-conflict error instead of reporting not
running. -/
theorem is_running_cases (hdrY hdrN : Option String)
    (hy : markerFound hdrY = true) (hn : markerFound hdrN = false) :
    is_running none = .ok false ∧
    is_running (some hdrY) = .ok true ∧
    is_running (some hdrN) = .error .portConflict := by
  refine ⟨rfl, ?_, ?_⟩
  · rw [is_running, if_pos hy]
  · rw [is_running, if_neg (by simp [hn])]

/-- C8 witness: a marker-bearing header value and an absent header. -/
theorem is_running_cases_witness :
    is_running none = .ok false ∧
    is_running (some (some "X-Custom, ZAP-Header")) = .ok true ∧
    is_running (some none) = .error .portConflict :=
  is_running_cases (some "X-Custom, ZAP-Header") none (by decide) (by decide)

end ZapCli
